import Mathlib

/-!
Verification of the PR-review agent workflow (`task/main.py`).

The file shallowly embeds the Python source: the six tool functions
(`get_pr_details`, `get_commit_details`, `add_context_to_state`,
`add_comment_to_state`, `add_final_review_to_state`, `post_review_to_github`),
the three `FunctionAgent` configurations, the `AgentWorkflow` configuration,
and the runner's PR-number handling.  The GitHub collaborator is modelled as
an explicit repository value; Python dict results become association lists of
string keys so that "exactly these fields" is expressible.  The handoff
router itself is provided by the `llama_index` framework and is not part of
the source tree; it is modelled from the specification (section 4.4) as a
fuelled deterministic step function over an abstract stream of agent turn
decisions.
-/

namespace PRAgent

/-- A JSON-like value, the shape of the Python dict/list results the tools
return.  `s` is a string field, `n` a numeric field, `list` a list field. -/
inductive JVal where
  | s (v : String)
  | n (v : Nat)
  | list (v : List JVal)

/-- A pull request as exposed by the GitHub collaborator: the attributes
`get_pr_details` reads (`user.login`, `title`, `body`, `diff_url`, `state`,
`head.sha`) plus the SHAs of its commits (`get_commits`). -/
structure PullRequest where
  user_login : String
  title : String
  body : String
  diff_url : String
  state : String
  head_sha : String
  commit_shas : List String

/-- One changed file of a commit, with the attributes `get_commit_details`
reads: filename, status, additions, deletions, changes, patch. -/
structure CommitFile where
  filename : String
  status : String
  additions : Nat
  deletions : Nat
  changes : Nat
  patch : String

/-- A review created on a pull request by `create_review`. -/
structure Review where
  id : Nat
  body : String
  event : String

/-- The GitHub repository collaborator.  `pulls` maps PR numbers to pull
requests (`repo.get_pull` raises when the number is absent), `commits` maps
commit SHAs to changed-file lists (`repo.get_commit`), `reviews` records the
reviews attached so far, and `next_review_id` is the identifier the service
assigns to the next created review.  GitHub's create-review endpoint creates
a fresh review on every call: it neither deduplicates identical bodies nor
rejects repeats, so `create_review` below always appends. -/
structure GithubRepo where
  pulls : List (Nat × PullRequest)
  commits : List (String × List CommitFile)
  reviews : List (Nat × Review)
  next_review_id : Nat

/-- `get_pr_details(pr_number)`: fetch PR details given the PR number.
Returns the dict literal of the source; `none` models the exception raised
when the PR is not found. -/
def get_pr_details (repo : GithubRepo) (pr_number : Nat) :
    Option (List (String × JVal)) :=
  match repo.pulls.lookup pr_number with
  | none => none
  | some pr => some
      [("author", JVal.s pr.user_login),
       ("title", JVal.s pr.title),
       ("body", JVal.s pr.body),
       ("diff_url", JVal.s pr.diff_url),
       ("state", JVal.s pr.state),
       ("head_sha", JVal.s pr.head_sha),
       ("commit_SHAs", JVal.list (pr.commit_shas.map JVal.s))]

/-- The per-file dict built inside `get_commit_details`. -/
def fileRecord (f : CommitFile) : List (String × JVal) :=
  [("filename", JVal.s f.filename),
   ("status", JVal.s f.status),
   ("additions", JVal.n f.additions),
   ("deletions", JVal.n f.deletions),
   ("changes", JVal.n f.changes),
   ("patch", JVal.s f.patch)]

/-- `get_commit_details(head_sha)`: fetch commit details given the commit
SHA; one record per changed file.  `none` models the exception raised when
the commit is not found. -/
def get_commit_details (repo : GithubRepo) (head_sha : String) :
    Option (List (List (String × JVal))) :=
  match repo.commits.lookup head_sha with
  | none => none
  | some files => some (files.map fileRecord)

/-- `pr.create_review(body, event)`: the collaborator appends a fresh review
with the next identifier and returns it. -/
def create_review (repo : GithubRepo) (pr_number : Nat) (body event : String) :
    Option (GithubRepo × Review) :=
  match repo.pulls.lookup pr_number with
  | none => none
  | some _ =>
      let r : Review := ⟨repo.next_review_id, body, event⟩
      some (⟨repo.pulls, repo.commits, repo.reviews ++ [(pr_number, r)],
             repo.next_review_id + 1⟩, r)

/-- `post_review_to_github(pr_number, comment)`: post the final review
comment to the PR on GitHub; returns the updated collaborator together with
the confirmation dict of the source. -/
def post_review_to_github (repo : GithubRepo) (pr_number : Nat)
    (comment : String) : Option (GithubRepo × List (String × JVal)) :=
  match create_review repo pr_number comment "COMMENT" with
  | none => none
  | some (repo2, review) =>
      some (repo2, [("status", JVal.s "success"),
                    ("review_id", JVal.n review.id)])

/-- SharedState: the workflow's mutable dict of named string fields. -/
def SharedState := String → Option String

/-- Python dict assignment on the shared state. -/
def SharedState.set (st : SharedState) (key v : String) : SharedState :=
  fun k => if k = key then some v else st k

/-- `add_context_to_state(state, context)`: save gathered context into state. -/
def add_context_to_state (state : SharedState) (context : String) :
    SharedState :=
  state.set "gathered_contexts" context

/-- `add_comment_to_state(state, draft_comment)`: save draft comment into
state. -/
def add_comment_to_state (state : SharedState) (draft_comment : String) :
    SharedState :=
  state.set "draft_comment" draft_comment

/-- `add_final_review_to_state(state, final_review)`: save final review into
state. -/
def add_final_review_to_state (state : SharedState) (final_review : String) :
    SharedState :=
  state.set "final_review_comment" final_review

/-- An agent configuration: its name, the names of the tools passed to it,
and its `can_handoff_to` list. -/
structure AgentSpec where
  name : String
  toolNames : List String
  canHandoffTo : List String

/-- The `ContextAgent` configuration from the source. -/
def context_agent : AgentSpec :=
  ⟨"ContextAgent",
   ["get_pr_details", "get_commit_details", "add_context_to_state"],
   ["CommentorAgent"]⟩

/-- The `CommentorAgent` configuration from the source. -/
def commentor_agent : AgentSpec :=
  ⟨"CommentorAgent",
   ["add_comment_to_state"],
   ["ContextAgent", "ReviewAndPostingAgent"]⟩

/-- The `ReviewAndPostingAgent` configuration from the source. -/
def review_and_posting_agent : AgentSpec :=
  ⟨"ReviewAndPostingAgent",
   ["add_final_review_to_state", "post_review_to_github"],
   ["CommentorAgent"]⟩

/-- An `AgentWorkflow` configuration: agent list, root agent name, initial
shared state. -/
structure WorkflowSpec where
  agents : List AgentSpec
  rootAgent : String
  initialState : SharedState

/-- The `initial_state` dict of the source workflow. -/
def initial_state : SharedState := fun k =>
  if k = "gathered_contexts" then some ""
  else if k = "draft_comment" then some ""
  else if k = "final_review_comment" then some ""
  else none

/-- The `workflow_agent` configuration from the source: the three agents,
root agent `review_and_posting_agent.name`, and the initial state dict. -/
def workflow_agent : WorkflowSpec :=
  ⟨[context_agent, commentor_agent, review_and_posting_agent],
   review_and_posting_agent.name,
   initial_state⟩

/-- The names of the agents configured in a workflow. -/
def agentNames (wf : WorkflowSpec) : List String :=
  wf.agents.map AgentSpec.name

/-- Look up an agent of the workflow by name. -/
def findAgent (wf : WorkflowSpec) (name : String) : Option AgentSpec :=
  wf.agents.find? (fun ag => ag.name = name)

/-- `main`'s PR-number handling: `os.getenv("PR_NUMBER") or "1"`.  Python's
`or` takes the right operand when the left is `None` or the empty string;
the value is kept as a string and never validated to be numeric. -/
def pr_number_of (env : String → Option String) : String :=
  match env "PR_NUMBER" with
  | none => "1"
  | some s => if s = "" then "1" else s

/-- The query string `main` passes to `workflow_agent.run`. -/
def main_query (env : String → Option String) : String :=
  "Write a review for PR number " ++ pr_number_of env

/-- Modelled from the spec: a tool-call request an agent turn may emit.  The
six constructors are the six registered tools; the router, not present in
the source tree (it is the framework's workflow engine), mediates them. -/
inductive ToolRequest where
  | getPRDetails (pr_number : Nat)
  | getCommitDetails (head_sha : String)
  | addContextToState (context : String)
  | addCommentToState (draft_comment : String)
  | addFinalReviewToState (final_review : String)
  | postReviewToGithub (pr_number : Nat) (comment : String)

/-- Does the request invoke the drafting tool `add_comment_to_state`? -/
def ToolRequest.isDraftWrite : ToolRequest → Bool
  | .addCommentToState _ => true
  | _ => false

/-- Modelled from the spec: the terminating action of one agent turn —
a handoff to a named peer, a terminal output, or a malformed turn that
declares neither. -/
inductive TurnAction where
  | handoff (target : String)
  | terminal (output : String)
  | malformed

/-- Modelled from the spec: one agent turn decision as produced by the
black-box language model — an ordered list of tool-call requests followed by
the turn's terminating action. -/
structure TurnDecision where
  toolCalls : List ToolRequest
  action : TurnAction

/-- Modelled from the spec: invoking one tool against the collaborator and
the shared state.  `none` is a `ToolExecutionError` (the hosting API raised);
read results flow to the model and are not tracked here, only collaborator
and state effects are. -/
def invokeTool (repo : GithubRepo) (st : SharedState) :
    ToolRequest → Option (GithubRepo × SharedState)
  | .getPRDetails pr =>
      (get_pr_details repo pr).map (fun _ => (repo, st))
  | .getCommitDetails sha =>
      (get_commit_details repo sha).map (fun _ => (repo, st))
  | .addContextToState c => some (repo, add_context_to_state st c)
  | .addCommentToState d => some (repo, add_comment_to_state st d)
  | .addFinalReviewToState r => some (repo, add_final_review_to_state st r)
  | .postReviewToGithub pr c =>
      (post_review_to_github repo pr c).map (fun p => (p.1, st))

/-- Modelled from the spec: apply a turn's tool calls in request order,
aborting on the first failure. -/
def applyToolCalls (repo : GithubRepo) (st : SharedState) :
    List ToolRequest → Option (GithubRepo × SharedState)
  | [] => some (repo, st)
  | t :: ts =>
      match invokeTool repo st t with
      | none => none
      | some (repo2, st2) => applyToolCalls repo2 st2 ts

/-- Modelled from the spec: the router's run context — current agent name,
collaborator state, shared state, turn counter. -/
structure RunContext where
  currentAgent : String
  repo : GithubRepo
  shared : SharedState
  turnCounter : Nat

/-- Modelled from the spec: the outcome of a run.  Each constructor carries
the run context as of the last fully-applied turn (turn atomicity: a failing
turn leaves no partial effects). -/
inductive RunResult where
  | finished (output : String) (final : RunContext)
  | toolExecutionError (final : RunContext)
  | invalidHandoffError (final : RunContext)
  | protocolViolationError (final : RunContext)
  | turnLimitExceededError (final : RunContext)

/-- The run context a result carries. -/
def RunResult.finalCtx : RunResult → RunContext
  | .finished _ ctx => ctx
  | .toolExecutionError ctx => ctx
  | .invalidHandoffError ctx => ctx
  | .protocolViolationError ctx => ctx
  | .turnLimitExceededError ctx => ctx

/-- Is the result a forced turn-limit termination? -/
def RunResult.isTurnLimitExceeded : RunResult → Bool
  | .turnLimitExceededError _ => true
  | _ => false

/-- Is the result an aborted run due to a failing tool call? -/
def RunResult.isToolExecutionError : RunResult → Bool
  | .toolExecutionError _ => true
  | _ => false

/-- Modelled from the spec: what one router step produces — either the run
halts with a result, or control continues in a new run context. -/
inductive StepOutcome where
  | halted (r : RunResult)
  | next (ctx : RunContext)

/-- Modelled from the spec: one router transition (spec 4.4 steps 1-5).
Tool calls are applied in order; the first failure aborts the run with
`ToolExecutionError` and, by turn atomicity, the pre-turn context.  A
handoff to a target outside the current agent's permitted set is
`InvalidHandoffError`; a valid handoff installs the target as current agent
and increments the turn counter; a terminal output finishes the run; a turn
declaring neither is a `ProtocolViolationError`. -/
def routerStep (wf : WorkflowSpec) (d : TurnDecision) (ctx : RunContext) :
    StepOutcome :=
  match findAgent wf ctx.currentAgent with
  | none => .halted (.protocolViolationError ctx)
  | some ag =>
      match applyToolCalls ctx.repo ctx.shared d.toolCalls with
      | none => .halted (.toolExecutionError ctx)
      | some (repo2, st2) =>
          match d.action with
          | .terminal out =>
              .halted (.finished out ⟨ctx.currentAgent, repo2, st2,
                                      ctx.turnCounter⟩)
          | .handoff target =>
              if target ∈ ag.canHandoffTo then
                .next ⟨target, repo2, st2, ctx.turnCounter + 1⟩
              else .halted (.invalidHandoffError ctx)
          | .malformed => .halted (.protocolViolationError ctx)

/-- Modelled from the spec: the router loop.  Before each turn the counter
is checked against the configured ceiling (`TurnLimitExceededError` once it
exceeds the limit); the fuel argument only makes the recursion structural
and is chosen large enough in `runRouter` that the ceiling check always
fires first. -/
def runRouterGo (wf : WorkflowSpec) (limit : Nat)
    (decisions : Nat → TurnDecision) : Nat → RunContext → RunResult
  | 0, ctx => .turnLimitExceededError ctx
  | fuel + 1, ctx =>
      if limit < ctx.turnCounter then .turnLimitExceededError ctx
      else
        match routerStep wf (decisions ctx.turnCounter) ctx with
        | .halted r => r
        | .next ctx2 => runRouterGo wf limit decisions fuel ctx2

/-- Modelled from the spec: the initial run context — current agent is the
configured root agent, shared state is the workflow's initial state, turn
counter starts at zero. -/
def initialCtx (wf : WorkflowSpec) (repo : GithubRepo) : RunContext :=
  ⟨wf.rootAgent, repo, wf.initialState, 0⟩

/-- Modelled from the spec: a complete run of the workflow under an
abstract stream of turn decisions, with a configured turn-limit ceiling. -/
def runRouter (wf : WorkflowSpec) (limit : Nat) (repo : GithubRepo)
    (decisions : Nat → TurnDecision) : RunResult :=
  runRouterGo wf limit decisions (limit + 2) (initialCtx wf repo)

/-- The infinite drafting-reviewing handoff cycle: every turn is a pure
handoff, alternating between `CommentorAgent` and `ReviewAndPostingAgent`. -/
def cycleDecisions : Nat → TurnDecision := fun n =>
  ⟨[], .handoff (if n % 2 = 0 then "CommentorAgent"
                 else "ReviewAndPostingAgent")⟩

/-- A concrete pull request for concrete evaluations. -/
def demoPR : PullRequest :=
  ⟨"alice", "Fix typo", "fixes a typo in the docs", "https://example.test/d",
   "open", "abc123", ["abc123"]⟩

/-- A concrete changed file for concrete evaluations. -/
def demoFile : CommitFile :=
  ⟨"src/app.py", "modified", 2, 1, 3, "patch-text"⟩

/-- A concrete repository holding PR 1 and commit abc123, no reviews yet. -/
def demoRepo : GithubRepo :=
  ⟨[(1, demoPR)], [("abc123", [demoFile])], [], 0⟩

/-- `demoRepo` after one review with body LGTM was posted on PR 1. -/
def demoRepoA : GithubRepo :=
  ⟨[(1, demoPR)], [("abc123", [demoFile])], [(1, ⟨0, "LGTM", "COMMENT"⟩)], 1⟩

/-- A repository with no pull requests: every `get_pr_details` call fails. -/
def emptyRepo : GithubRepo := ⟨[], [], [], 0⟩

/-- A concrete decision stream for the failing-read scenario: the root agent
hands to the drafting agent, which asks the context agent for context; the
context agent's read of PR 1 then fails. -/
def failReadDecisions : Nat → TurnDecision := fun n =>
  if n = 0 then ⟨[], .handoff "CommentorAgent"⟩
  else if n = 1 then ⟨[], .handoff "ContextAgent"⟩
  else ⟨[.getPRDetails 1], .handoff "CommentorAgent"⟩

/-- A concrete decision stream in which the root agent hands off to the
drafting agent, whose terminal output then ends the run. -/
def terminalDemoDecisions : Nat → TurnDecision := fun n =>
  if n = 0 then ⟨[], .handoff "CommentorAgent"⟩
  else ⟨[], .terminal "done"⟩

section Theorems

/-- A router step that continues increments the turn counter by exactly
one. -/
theorem routerStep_next_counter (wf : WorkflowSpec) (d : TurnDecision)
    (ctx ctx2 : RunContext)
    (h : routerStep wf d ctx = StepOutcome.next ctx2) :
    ctx2.turnCounter = ctx.turnCounter + 1 := by
  unfold routerStep at h
  repeat' split at h
  all_goals cases h
  rfl

/-- A router step that halts reports the current agent and turn counter of
the halting turn unchanged. -/
theorem routerStep_halted_ctx (wf : WorkflowSpec) (d : TurnDecision)
    (ctx : RunContext) (r : RunResult)
    (h : routerStep wf d ctx = StepOutcome.halted r) :
    r.finalCtx.currentAgent = ctx.currentAgent ∧
    r.finalCtx.turnCounter = ctx.turnCounter := by
  unfold routerStep at h
  repeat' split at h
  all_goals cases h
  all_goals exact ⟨rfl, rfl⟩

/-- A router step that aborts with `ToolExecutionError` leaves the run
context exactly as it was before the turn (turn atomicity). -/
theorem routerStep_toolError_ctx (wf : WorkflowSpec) (d : TurnDecision)
    (ctx ctx2 : RunContext)
    (h : routerStep wf d ctx =
      StepOutcome.halted (RunResult.toolExecutionError ctx2)) :
    ctx2 = ctx := by
  unfold routerStep at h
  repeat' split at h
  all_goals cases h
  rfl

/-- A router step that continues does so through a handoff permitted by the
current agent's configuration. -/
theorem routerStep_next_handoff (wf : WorkflowSpec) (d : TurnDecision)
    (ctx ctx2 : RunContext)
    (h : routerStep wf d ctx = StepOutcome.next ctx2) :
    ∃ ag, findAgent wf ctx.currentAgent = some ag ∧
      ctx2.currentAgent ∈ ag.canHandoffTo := by
  unfold routerStep at h
  repeat' split at h
  all_goals cases h
  rename_i x1 ag hfind x2 repo2 st2 happ x3 target hact hmem
  exact ⟨ag, hfind, hmem⟩

/-- In the configured workflow, every declared handoff target of every
configured agent names a configured agent. -/
theorem workflow_handoff_targets_closed :
    ∀ ag ∈ workflow_agent.agents, ∀ t ∈ ag.canHandoffTo,
      t ∈ agentNames workflow_agent := by
  decide

/-- A continuing router step of the configured workflow keeps the current
agent inside the configured agent set. -/
theorem routerStep_next_agent_mem (d : TurnDecision) (ctx ctx2 : RunContext)
    (h : routerStep workflow_agent d ctx = StepOutcome.next ctx2) :
    ctx2.currentAgent ∈ agentNames workflow_agent := by
  rcases routerStep_next_handoff workflow_agent d ctx ctx2 h with
    ⟨ag, hag, htgt⟩
  exact workflow_handoff_targets_closed ag (List.mem_of_find?_eq_some hag)
    _ htgt

/-- The router loop either forces turn-limit termination or halts with a
turn counter within the ceiling. -/
theorem runRouterGo_within_limit (wf : WorkflowSpec) (limit : Nat)
    (decisions : Nat → TurnDecision) :
    ∀ fuel ctx,
      (runRouterGo wf limit decisions fuel ctx).isTurnLimitExceeded = true ∨
      (runRouterGo wf limit decisions fuel ctx).finalCtx.turnCounter ≤
        limit := by
  intro fuel
  induction fuel with
  | zero => intro ctx; left; rfl
  | succ fuel ih =>
      intro ctx
      rw [runRouterGo]
      split
      · left; rfl
      next hle =>
        cases hs : routerStep wf (decisions ctx.turnCounter) ctx with
        | halted r =>
            right
            have hc := (routerStep_halted_ctx wf _ ctx r hs).2
            show r.finalCtx.turnCounter ≤ limit
            omega
        | next ctx2 => exact ih ctx2

/-- Runs of the configured workflow never leave the configured agent set:
the final run context's current agent is a configured agent whenever the
starting one is. -/
theorem runRouterGo_agent_mem (limit : Nat) (decisions : Nat → TurnDecision) :
    ∀ fuel ctx, ctx.currentAgent ∈ agentNames workflow_agent →
      (runRouterGo workflow_agent limit decisions fuel
        ctx).finalCtx.currentAgent ∈ agentNames workflow_agent := by
  intro fuel
  induction fuel with
  | zero => intro ctx h; exact h
  | succ fuel ih =>
      intro ctx h
      rw [runRouterGo]
      split
      · exact h
      · cases hs : routerStep workflow_agent (decisions ctx.turnCounter) ctx
          with
        | halted r =>
            have hc := (routerStep_halted_ctx workflow_agent _ ctx r hs).1
            show r.finalCtx.currentAgent ∈ agentNames workflow_agent
            rw [hc]; exact h
        | next ctx2 => exact ih ctx2 (routerStep_next_agent_mem _ ctx ctx2 hs)

/-- The pure drafting-reviewing handoff cycle is always cut off by the turn
limit: from any context respecting the cycle's parity invariant the router
loop ends in `TurnLimitExceededError`. -/
theorem runRouterGo_cycle (limit : Nat) :
    ∀ fuel ctx,
      ctx.currentAgent = (if ctx.turnCounter % 2 = 0
        then "ReviewAndPostingAgent" else "CommentorAgent") →
      (runRouterGo workflow_agent limit cycleDecisions fuel
        ctx).isTurnLimitExceeded = true := by
  intro fuel
  induction fuel with
  | zero => intro ctx h; rfl
  | succ fuel ih =>
      intro ctx h
      rw [runRouterGo]
      split
      · rfl
      · by_cases h2 : ctx.turnCounter % 2 = 0
        · have hh : ctx.currentAgent = "ReviewAndPostingAgent" := by
            rw [h, if_pos h2]
          have hstep : routerStep workflow_agent
              (cycleDecisions ctx.turnCounter) ctx = StepOutcome.next
                ⟨"CommentorAgent", ctx.repo, ctx.shared,
                 ctx.turnCounter + 1⟩ := by
            unfold routerStep cycleDecisions
            rw [hh, if_pos h2]
            rfl
          rw [hstep]
          refine ih _ ?_
          have hmod : (ctx.turnCounter + 1) % 2 = 1 := by omega
          show "CommentorAgent" = _
          rw [hmod]
          rfl
        · have hh : ctx.currentAgent = "CommentorAgent" := by
            rw [h, if_neg h2]
          have hstep : routerStep workflow_agent
              (cycleDecisions ctx.turnCounter) ctx = StepOutcome.next
                ⟨"ReviewAndPostingAgent", ctx.repo, ctx.shared,
                 ctx.turnCounter + 1⟩ := by
            unfold routerStep cycleDecisions
            rw [hh, if_neg h2]
            rfl
          rw [hstep]
          refine ih _ ?_
          have hmod : (ctx.turnCounter + 1) % 2 = 0 := by omega
          show "ReviewAndPostingAgent" = _
          rw [hmod]
          rfl

/-- C7: the drafting agent's tool set is exactly `add_comment_to_state` and
its handoff targets are exactly the context agent and the reviewing agent;
the review-and-posting agent's tool set is exactly
`add_final_review_to_state` and `post_review_to_github` and its only handoff
target is the drafting agent. -/
theorem C7_capability_sets :
    commentor_agent.toolNames = ["add_comment_to_state"] ∧
    commentor_agent.canHandoffTo = ["ContextAgent", "ReviewAndPostingAgent"] ∧
    review_and_posting_agent.toolNames =
      ["add_final_review_to_state", "post_review_to_github"] ∧
    review_and_posting_agent.canHandoffTo = ["CommentorAgent"] :=
  ⟨rfl, rfl, rfl, rfl⟩

/-- C8: each state-write tool overwrites exactly its designated field —
pointwise, the written state agrees with the old state everywhere except the
designated key, which now holds the written value — and a field is present
afterwards exactly when it was present before or is the designated key, so
no tool ever deletes a field. -/
theorem C8_state_write_frame :
    (∀ st c k, add_context_to_state st c k =
      if k = "gathered_contexts" then some c else st k) ∧
    (∀ st d k, add_comment_to_state st d k =
      if k = "draft_comment" then some d else st k) ∧
    (∀ st r k, add_final_review_to_state st r k =
      if k = "final_review_comment" then some r else st k) ∧
    (∀ st c k, (add_context_to_state st c k).isSome =
      ((st k).isSome || (k == "gathered_contexts"))) ∧
    (∀ st d k, (add_comment_to_state st d k).isSome =
      ((st k).isSome || (k == "draft_comment"))) ∧
    (∀ st r k, (add_final_review_to_state st r k).isSome =
      ((st k).isSome || (k == "final_review_comment"))) := by
  refine ⟨fun st c k => rfl, fun st d k => rfl, fun st r k => rfl,
          ?_, ?_, ?_⟩ <;>
    · intro st v k
      show (if k = _ then some v else st k).isSome = _
      split
      · simp_all
      · simp_all

/-- C9 (amended): the workflow's configured root agent — the current agent
of every freshly created run context, whose turn therefore opens every run —
is the `ReviewAndPostingAgent`, not the context-gathering agent, and at run
start no context has been gathered and no draft exists (both fields hold the
initial empty string).  The root agent is not, however, the only agent whose
terminal output can end a run: see the accompanying counterexample. -/
theorem C9_root_agent :
    workflow_agent.rootAgent = "ReviewAndPostingAgent" ∧
    workflow_agent.rootAgent = review_and_posting_agent.name ∧
    workflow_agent.rootAgent ≠ context_agent.name ∧
    (∀ repo, (initialCtx workflow_agent repo).currentAgent =
      "ReviewAndPostingAgent") ∧
    workflow_agent.initialState "gathered_contexts" = some "" ∧
    workflow_agent.initialState "draft_comment" = some "" := by
  refine ⟨rfl, rfl, ?_, fun repo => rfl, rfl, rfl⟩
  decide

/-- C9 counterexample: the configured root agent is not the agent whose
terminal output ends every run — in a concrete run the root agent hands off
to the drafting agent, and the drafting agent's terminal output then ends
the run, so the run is finished by the terminal output of an agent that is
not the configured root agent. -/
theorem C9_terminal_counterexample :
    runRouter workflow_agent 10 emptyRepo terminalDemoDecisions =
      RunResult.finished "done"
        ⟨"CommentorAgent", emptyRepo, initial_state, 1⟩ ∧
    ("CommentorAgent" : String) ≠ workflow_agent.rootAgent :=
  ⟨rfl, by decide⟩

/-- C10: when `PR_NUMBER` is unset or empty the runner silently defaults the
PR identifier to the string 1 and the query asks for a review of PR number
1; any non-empty value — numeric or not — is taken verbatim as a string. -/
theorem C10_pr_number_default :
    (∀ env, env "PR_NUMBER" = none → pr_number_of env = "1") ∧
    (∀ env, env "PR_NUMBER" = some "" → pr_number_of env = "1") ∧
    (∀ env, env "PR_NUMBER" = none →
      main_query env = "Write a review for PR number 1") ∧
    (∀ env s, env "PR_NUMBER" = some s → s ≠ "" → pr_number_of env = s) ∧
    pr_number_of
      (fun k => if k = "PR_NUMBER" then some "not-a-number" else none) =
      "not-a-number" := by
  refine ⟨?_, ?_, ?_, ?_, ?_⟩
  · intro env h; unfold pr_number_of; rw [h]
  · intro env h; unfold pr_number_of; rw [h]; rfl
  · intro env h; unfold main_query pr_number_of; rw [h]; rfl
  · intro env s h hs; unfold pr_number_of; rw [h]; simp [hs]
  · rfl

/-- C10 witness: the defaults and the verbatim non-numeric value at concrete
environments. -/
theorem C10_pr_number_default_witness :
    pr_number_of (fun _ => none) = "1" ∧
    pr_number_of (fun _ => some "") = "1" ∧
    main_query (fun _ => none) = "Write a review for PR number 1" ∧
    pr_number_of (fun _ => some "abc") = "abc" :=
  ⟨C10_pr_number_default.1 (fun _ => none) rfl,
   C10_pr_number_default.2.1 (fun _ => some "") rfl,
   C10_pr_number_default.2.2.1 (fun _ => none) rfl,
   C10_pr_number_default.2.2.2.1 (fun _ => some "abc") "abc" rfl
     (by decide)⟩

/-- C4: whenever they succeed, the read tools return structured records with
exactly the specified fields — `get_pr_details` the author, title, body,
diff reference, state, head commit and commit-identifier list of the PR, in
that order and nothing else; `get_commit_details` one record per changed
file holding exactly filename, status, added, deleted and changed line
counts, and patch text. -/
theorem C4_read_tool_fields :
    (∀ repo n pr, repo.pulls.lookup n = some pr →
      get_pr_details repo n = some
        [("author", JVal.s pr.user_login), ("title", JVal.s pr.title),
         ("body", JVal.s pr.body), ("diff_url", JVal.s pr.diff_url),
         ("state", JVal.s pr.state), ("head_sha", JVal.s pr.head_sha),
         ("commit_SHAs", JVal.list (pr.commit_shas.map JVal.s))]) ∧
    (∀ repo n d, get_pr_details repo n = some d →
      d.map Prod.fst =
        ["author", "title", "body", "diff_url", "state", "head_sha",
         "commit_SHAs"]) ∧
    (∀ repo sha files, repo.commits.lookup sha = some files →
      get_commit_details repo sha = some (files.map fileRecord)) ∧
    (∀ repo sha recs, get_commit_details repo sha = some recs →
      ∀ rec ∈ recs, rec.map Prod.fst =
        ["filename", "status", "additions", "deletions", "changes",
         "patch"]) := by
  refine ⟨?_, ?_, ?_, ?_⟩
  · intro repo n pr h; unfold get_pr_details; rw [h]
  · intro repo n d h
    unfold get_pr_details at h
    cases hl : repo.pulls.lookup n <;> rw [hl] at h
    · exact absurd h (by simp)
    · cases h; rfl
  · intro repo sha files h; unfold get_commit_details; rw [h]
  · intro repo sha recs h rec hrec
    unfold get_commit_details at h
    cases hl : repo.commits.lookup sha <;> rw [hl] at h
    · exact absurd h (by simp)
    · cases h
      rcases List.mem_map.mp hrec with ⟨f, hf, hfr⟩
      rw [← hfr]; rfl

/-- C4 witness: both read tools evaluated on the concrete repository. -/
theorem C4_read_tool_fields_witness :
    get_pr_details demoRepo 1 = some
      [("author", JVal.s "alice"), ("title", JVal.s "Fix typo"),
       ("body", JVal.s "fixes a typo in the docs"),
       ("diff_url", JVal.s "https://example.test/d"),
       ("state", JVal.s "open"), ("head_sha", JVal.s "abc123"),
       ("commit_SHAs", JVal.list [JVal.s "abc123"])] ∧
    get_commit_details demoRepo "abc123" = some [fileRecord demoFile] ∧
    (fileRecord demoFile).map Prod.fst =
      ["filename", "status", "additions", "deletions", "changes",
       "patch"] :=
  ⟨C4_read_tool_fields.1 demoRepo 1 demoPR rfl,
   C4_read_tool_fields.2.2.1 demoRepo "abc123" [demoFile] rfl,
   C4_read_tool_fields.2.2.2 demoRepo "abc123" [fileRecord demoFile]
     (C4_read_tool_fields.2.2.1 demoRepo "abc123" [demoFile] rfl)
     (fileRecord demoFile) (by simp)⟩

/-- C5: whenever it succeeds, `post_review_to_github` returns a confirmation
record holding the status string success and the identifier of the review
the hosting service just created (the review appended to the collaborator
carries that same identifier). -/
theorem C5_post_confirmation (repo : GithubRepo) (n : Nat) (c : String)
    (pr : PullRequest) (h : repo.pulls.lookup n = some pr) :
    post_review_to_github repo n c = some
      (⟨repo.pulls, repo.commits,
        repo.reviews ++ [(n, ⟨repo.next_review_id, c, "COMMENT"⟩)],
        repo.next_review_id + 1⟩,
       [("status", JVal.s "success"),
        ("review_id", JVal.n repo.next_review_id)]) := by
  unfold post_review_to_github create_review
  rw [h]

/-- C5 witness: posting the review LGTM on PR 1 of the concrete repository
returns status success with created-review identifier 0. -/
theorem C5_post_confirmation_witness :
    post_review_to_github demoRepo 1 "LGTM" = some
      (demoRepoA,
       [("status", JVal.s "success"), ("review_id", JVal.n 0)]) :=
  C5_post_confirmation demoRepo 1 "LGTM" demoPR rfl

/-- C2 counterexample: re-invoking `post_review_to_github` with the same
body LGTM and the same PR number 1 is not rejected and does not return the
same created-review identifier — the first call returns identifier 0, the
second returns identifier 1, and afterwards two distinct posted reviews are
recorded on the hosting service. -/
theorem C2_counterexample :
    post_review_to_github demoRepo 1 "LGTM" = some
      (demoRepoA,
       [("status", JVal.s "success"), ("review_id", JVal.n 0)]) ∧
    (post_review_to_github demoRepoA 1 "LGTM").map Prod.snd =
      some [("status", JVal.s "success"), ("review_id", JVal.n 1)] ∧
    (post_review_to_github demoRepoA 1 "LGTM").map
      (fun p => p.1.reviews.length) = some 2 ∧
    JVal.n 1 ≠ JVal.n 0 := by
  refine ⟨rfl, rfl, rfl, fun h => ?_⟩
  injection h with h1
  exact Nat.one_ne_zero h1

/-- C2 amended: re-invoking `post_review_to_github` with an identical
comment and PR number after a successful post succeeds again, but with a
fresh, distinct created-review identifier, leaving two new posted reviews on
the hosting service for the two calls; the tool itself never touches the
workflow's SharedState (it only reads the PR and creates a review). -/
theorem C2_amended_repost (repo : GithubRepo) (n : Nat) (c : String)
    (repoA : GithubRepo) (outA : List (String × JVal))
    (h : post_review_to_github repo n c = some (repoA, outA)) :
    outA = [("status", JVal.s "success"),
            ("review_id", JVal.n repo.next_review_id)] ∧
    (post_review_to_github repoA n c).map Prod.snd =
      some [("status", JVal.s "success"),
            ("review_id", JVal.n (repo.next_review_id + 1))] ∧
    (post_review_to_github repoA n c).map (fun p => p.1.reviews.length) =
      some (repo.reviews.length + 2) ∧
    (post_review_to_github repoA n c).map Prod.snd ≠ some outA := by
  unfold post_review_to_github create_review at h ⊢
  cases hl : repo.pulls.lookup n <;> rw [hl] at h
  · exact absurd h (by simp)
  · cases h
    rw [hl]
    refine ⟨rfl, rfl, by simp, fun hne => ?_⟩
    simp only [Option.map_some', Option.some.injEq, List.cons.injEq,
      Prod.mk.injEq, JVal.n.injEq] at hne
    exact Nat.succ_ne_self repo.next_review_id hne.2.1.2

/-- C2 amended witness: the repost behaviour at the concrete repository. -/
theorem C2_amended_repost_witness :
    ([("status", JVal.s "success"), ("review_id", JVal.n 0)] :
        List (String × JVal)) =
      [("status", JVal.s "success"), ("review_id", JVal.n 0)] ∧
    (post_review_to_github demoRepoA 1 "LGTM").map Prod.snd =
      some [("status", JVal.s "success"), ("review_id", JVal.n 1)] ∧
    (post_review_to_github demoRepoA 1 "LGTM").map
      (fun p => p.1.reviews.length) = some 2 ∧
    (post_review_to_github demoRepoA 1 "LGTM").map Prod.snd ≠
      some [("status", JVal.s "success"), ("review_id", JVal.n 0)] :=
  C2_amended_repost demoRepo 1 "LGTM" demoRepoA
    [("status", JVal.s "success"), ("review_id", JVal.n 0)] rfl

/-- A single tool invocation that is not the drafting tool leaves the
`draft_comment` field untouched. -/
theorem invokeTool_draft_frame (repo : GithubRepo) (st : SharedState)
    (t : ToolRequest) (repo2 : GithubRepo) (st2 : SharedState)
    (h : invokeTool repo st t = some (repo2, st2))
    (hd : t.isDraftWrite = false) :
    st2 "draft_comment" = st "draft_comment" := by
  cases t with
  | getPRDetails pr =>
      simp only [invokeTool] at h
      cases hl : get_pr_details repo pr <;> simp [hl] at h
      rw [← h.2]
  | getCommitDetails sha =>
      simp only [invokeTool] at h
      cases hl : get_commit_details repo sha <;> simp [hl] at h
      rw [← h.2]
  | addContextToState c =>
      simp only [invokeTool, Option.some.injEq, Prod.mk.injEq] at h
      rw [← h.2]
      rfl
  | addCommentToState d => cases hd
  | addFinalReviewToState r =>
      simp only [invokeTool, Option.some.injEq, Prod.mk.injEq] at h
      rw [← h.2]
      rfl
  | postReviewToGithub pr c =>
      simp only [invokeTool] at h
      cases hl : post_review_to_github repo pr c <;> simp [hl] at h
      rw [← h.2]

/-- Applying a turn's tool calls preserves the `draft_comment` field as long
as none of them is the drafting tool. -/
theorem applyToolCalls_draft_frame :
    ∀ (ts : List ToolRequest) (repo : GithubRepo) (st : SharedState)
      (repo2 : GithubRepo) (st2 : SharedState),
      applyToolCalls repo st ts = some (repo2, st2) →
      (∀ t ∈ ts, t.isDraftWrite = false) →
      st2 "draft_comment" = st "draft_comment" := by
  intro ts
  induction ts with
  | nil =>
      intro repo st repo2 st2 h hall
      have h2 : (some (repo, st) : Option (GithubRepo × SharedState)) =
          some (repo2, st2) := h
      simp only [Option.some.injEq, Prod.mk.injEq] at h2
      rw [← h2.2]
  | cons t ts ih =>
      intro repo st repo2 st2 h hall
      simp only [applyToolCalls] at h
      cases hi : invokeTool repo st t <;> rw [hi] at h
      · exact Option.noConfusion h
      next v =>
        obtain ⟨repoM, stM⟩ := v
        have hrest : applyToolCalls repoM stM ts = some (repo2, st2) := h
        have h1 := ih repoM stM repo2 st2 hrest
          (fun t2 ht2 => hall t2 (List.mem_cons_of_mem t ht2))
        have h2 := invokeTool_draft_frame repo st t repoM stM hi
          (hall t (List.mem_cons_self t ts))
        rw [h1, h2]

/-- If a run of the configured workflow aborts with `ToolExecutionError` and
no turn decision ever requested the drafting tool, the `draft_comment` field
at abort still holds whatever it held at the start. -/
theorem runRouterGo_no_draft (limit : Nat) (decisions : Nat → TurnDecision)
    (hnd : ∀ i t, t ∈ (decisions i).toolCalls → t.isDraftWrite = false) :
    ∀ fuel ctx ctx2, ctx.shared "draft_comment" = some "" →
      runRouterGo workflow_agent limit decisions fuel ctx =
        RunResult.toolExecutionError ctx2 →
      ctx2.shared "draft_comment" = some "" := by
  intro fuel
  induction fuel with
  | zero =>
      intro ctx ctx2 hdc h
      exact RunResult.noConfusion h
  | succ fuel ih =>
      intro ctx ctx2 hdc h
      rw [runRouterGo] at h
      split at h
      · exact RunResult.noConfusion h
      · cases hs : routerStep workflow_agent (decisions ctx.turnCounter) ctx
          <;> rw [hs] at h
        case halted r =>
            subst h
            have := routerStep_toolError_ctx workflow_agent _ ctx ctx2 hs
            rw [this]
            exact hdc
        case next ctxN =>
            refine ih ctxN ctx2 ?_ h
            rcases hagent : findAgent workflow_agent ctx.currentAgent with
              _ | ag
            · unfold routerStep at hs
              rw [hagent] at hs
              exact StepOutcome.noConfusion hs
            · unfold routerStep at hs
              rw [hagent] at hs
              rcases happ : applyToolCalls ctx.repo ctx.shared
                  (decisions ctx.turnCounter).toolCalls with _ | v
              · rw [happ] at hs
                exact StepOutcome.noConfusion hs
              · obtain ⟨repoM, stM⟩ := v
                rw [happ] at hs
                have hframe := applyToolCalls_draft_frame
                  (decisions ctx.turnCounter).toolCalls ctx.repo ctx.shared
                  repoM stM happ (hnd ctx.turnCounter)
                rcases hact : (decisions ctx.turnCounter).action with
                  tgt | out | _
                · rw [hact] at hs
                  have hs2 : (if tgt ∈ ag.canHandoffTo then
                      StepOutcome.next (⟨tgt, repoM, stM,
                        ctx.turnCounter + 1⟩ : RunContext)
                      else StepOutcome.halted
                        (RunResult.invalidHandoffError ctx)) =
                      StepOutcome.next ctxN := hs
                  split at hs2
                  · cases hs2
                    rw [show RunContext.shared
                        ⟨tgt, repoM, stM, ctx.turnCounter + 1⟩ = stM
                      from rfl]
                    rw [hframe]
                    exact hdc
                  · exact StepOutcome.noConfusion hs2
                · rw [hact] at hs
                  exact StepOutcome.noConfusion hs
                · rw [hact] at hs
                  exact StepOutcome.noConfusion hs

/-- The decision stream of the failing-read scenario never requests the
drafting tool. -/
theorem failReadDecisions_no_draft :
    ∀ i t, t ∈ (failReadDecisions i).toolCalls → t.isDraftWrite = false := by
  intro i t ht
  unfold failReadDecisions at ht
  split at ht
  · exact absurd ht (List.not_mem_nil t)
  · split at ht
    · exact absurd ht (List.not_mem_nil t)
    · have h2 : t ∈ [ToolRequest.getPRDetails 1] := ht
      simp only [List.mem_singleton] at h2
      subst h2
      rfl

/-- C3: when the hosting collaborator's read call fails (the PR is not
found), the context agent's turn aborts on the spot with
`ToolExecutionError` surfaced and the pre-turn run context intact; and in
any such aborted run in which the drafting tool was never requested —
in particular before any draft is produced — the `draft_comment` field
still holds its initial empty-string value at abort. -/
theorem C3_read_failure_aborts :
    (∀ ctx pr rest act, ctx.currentAgent = "ContextAgent" →
      ctx.repo.pulls.lookup pr = none →
      routerStep workflow_agent
        ⟨ToolRequest.getPRDetails pr :: rest, act⟩ ctx =
        StepOutcome.halted (RunResult.toolExecutionError ctx)) ∧
    (∀ limit decisions repo ctx2,
      (∀ i t, t ∈ (decisions i).toolCalls → t.isDraftWrite = false) →
      runRouter workflow_agent limit repo decisions =
        RunResult.toolExecutionError ctx2 →
      ctx2.shared "draft_comment" = some "") := by
  constructor
  · intro ctx pr rest act h1 h2
    unfold routerStep
    rw [h1]
    rw [show findAgent workflow_agent "ContextAgent" = some context_agent
      from rfl]
    have happ : applyToolCalls ctx.repo ctx.shared
        (ToolRequest.getPRDetails pr :: rest) = none := by
      simp only [applyToolCalls, invokeTool, get_pr_details, h2]
      rfl
    rw [happ]
  · intro limit decisions repo ctx2 hnd hrun
    exact runRouterGo_no_draft limit decisions hnd (limit + 2)
      (initialCtx workflow_agent repo) ctx2 rfl hrun

/-- C3 witness: in the concrete failing-read run the context agent's read
of absent PR 1 aborts the turn with `ToolExecutionError` and the pre-turn
context, and the whole run ends in that abort with `draft_comment` still
the empty string. -/
theorem C3_read_failure_aborts_witness :
    routerStep workflow_agent
      ⟨[ToolRequest.getPRDetails 1], TurnAction.handoff "CommentorAgent"⟩
      ⟨"ContextAgent", emptyRepo, initial_state, 2⟩ =
      StepOutcome.halted (RunResult.toolExecutionError
        ⟨"ContextAgent", emptyRepo, initial_state, 2⟩) ∧
    RunContext.shared
      (⟨"ContextAgent", emptyRepo, initial_state, 2⟩ : RunContext)
      "draft_comment" = some "" :=
  ⟨C3_read_failure_aborts.1 ⟨"ContextAgent", emptyRepo, initial_state, 2⟩ 1
     [] (TurnAction.handoff "CommentorAgent") rfl rfl,
   C3_read_failure_aborts.2 10 failReadDecisions emptyRepo
     ⟨"ContextAgent", emptyRepo, initial_state, 2⟩
     failReadDecisions_no_draft (by rfl)⟩

/-- C1: the turn counter strictly increases by exactly one per completed
turn; every run either halts with its turn counter within the configured
ceiling or is forced to raise `TurnLimitExceededError`; and the infinite
drafting-reviewing handoff cycle is always cut off by the ceiling. -/
theorem C1_turn_counter_limit :
    (∀ d ctx ctx2, routerStep workflow_agent d ctx = StepOutcome.next ctx2 →
        ctx2.turnCounter = ctx.turnCounter + 1) ∧
    (∀ limit repo decisions,
        (runRouter workflow_agent limit repo decisions).isTurnLimitExceeded =
          true ∨
        (runRouter workflow_agent limit repo
          decisions).finalCtx.turnCounter ≤ limit) ∧
    (∀ limit repo,
        (runRouter workflow_agent limit repo
          cycleDecisions).isTurnLimitExceeded = true) :=
  ⟨routerStep_next_counter workflow_agent,
   fun limit repo decisions =>
     runRouterGo_within_limit workflow_agent limit decisions (limit + 2)
       (initialCtx workflow_agent repo),
   fun limit repo =>
     runRouterGo_cycle limit (limit + 2) (initialCtx workflow_agent repo)
       rfl⟩

/-- C1 witness: one concrete completed turn increments the counter from 0
to 1, and a concrete drafting-reviewing cycle with ceiling 3 ends in
turn-limit termination. -/
theorem C1_turn_counter_limit_witness :
    RunContext.turnCounter ⟨"CommentorAgent", emptyRepo, initial_state, 1⟩ =
      RunContext.turnCounter (initialCtx workflow_agent emptyRepo) + 1 ∧
    (runRouter workflow_agent 3 emptyRepo
      cycleDecisions).isTurnLimitExceeded = true :=
  ⟨C1_turn_counter_limit.1 ⟨[], TurnAction.handoff "CommentorAgent"⟩
     (initialCtx workflow_agent emptyRepo)
     ⟨"CommentorAgent", emptyRepo, initial_state, 1⟩ rfl,
   C1_turn_counter_limit.2.2 3 emptyRepo⟩

/-- C6: every handoff target declared by every configured agent names a
configured agent — the three declared target lists are exactly those of the
source — and the router never enters a state outside the configured agent
set: one step preserves membership and every complete run ends with a
configured current agent. -/
theorem C6_handoff_targets :
    (∀ ag ∈ workflow_agent.agents, ∀ t ∈ ag.canHandoffTo,
        t ∈ agentNames workflow_agent) ∧
    context_agent.canHandoffTo = ["CommentorAgent"] ∧
    commentor_agent.canHandoffTo = ["ContextAgent", "ReviewAndPostingAgent"] ∧
    review_and_posting_agent.canHandoffTo = ["CommentorAgent"] ∧
    (∀ d ctx ctx2, routerStep workflow_agent d ctx = StepOutcome.next ctx2 →
        ctx2.currentAgent ∈ agentNames workflow_agent) ∧
    (∀ limit repo decisions,
        (runRouter workflow_agent limit repo
          decisions).finalCtx.currentAgent ∈ agentNames workflow_agent) :=
  ⟨workflow_handoff_targets_closed, rfl, rfl, rfl,
   routerStep_next_agent_mem,
   fun limit repo decisions =>
     runRouterGo_agent_mem limit decisions (limit + 2)
       (initialCtx workflow_agent repo)
       (show ("ReviewAndPostingAgent" : String) ∈ agentNames workflow_agent
        by decide)⟩

/-- C6 witness: the drafting agent is a configured target, and the concrete
first handoff of a run lands on a configured agent. -/
theorem C6_handoff_targets_witness :
    ("CommentorAgent" ∈ agentNames workflow_agent) ∧
    (RunContext.currentAgent
        ⟨"CommentorAgent", emptyRepo, initial_state, 1⟩ ∈
      agentNames workflow_agent) :=
  ⟨C6_handoff_targets.1 context_agent
     (show context_agent ∈
        [context_agent, commentor_agent, review_and_posting_agent] from
      List.mem_cons_self _ _)
     "CommentorAgent" (by decide),
   C6_handoff_targets.2.2.2.2.1 ⟨[], TurnAction.handoff "CommentorAgent"⟩
     (initialCtx workflow_agent emptyRepo)
     ⟨"CommentorAgent", emptyRepo, initial_state, 1⟩ rfl⟩

end Theorems

end PRAgent
